import Mathlib

/-!
Verification of the ABIParser core model (SolidityHelper.py).

The Python source is shallowly embedded: strings are Lean strings
manipulated at the code-point level (Python strings are sequences of code
points), dicts are insertion-ordered association lists with last-wins
update, Python exceptions are an explicit error type threaded through
Except, and the hash primitive actually called by the code
(hashlib.sha3_256) is implemented bit-for-bit so that digests evaluate
inside Lean.
-/

/-! ## Python string primitives

Each helper mirrors one Python string operation used by the source:
slicing, startswith, and str.join. -/

/-- Python s[:n] (take the first n code points). -/
def pyTake (s : String) (n : Nat) : String := String.mk (s.data.take n)

/-- Python s[n:] (drop the first n code points). -/
def pyDrop (s : String) (n : Nat) : String := String.mk (s.data.drop n)

def pyStartsWithAux : List Char → List Char → Bool
  | [], _ => true
  | _ :: _, [] => false
  | a :: as, b :: bs => a = b && pyStartsWithAux as bs

/-- Python s.startswith(p). -/
def pyStartsWith (s p : String) : Bool := pyStartsWithAux p.data s.data

/-- Python sep.join(l). -/
def pyJoin (sep : String) : List String → String
  | [] => ""
  | x :: xs => xs.foldl (fun acc y => acc ++ sep ++ y) x

/-- The substring after the last colon: Python full_name.split(":")[-1]. -/
def afterLastColon (l : List Char) : List Char :=
  l.foldl (fun acc c => if c = ':' then [] else acc ++ [c]) []

def trailName (full_name : String) : String := String.mk (afterLastColon full_name.data)

/-! ## The hash primitive

The source calls hashlib.sha3_256 (FIPS-202 SHA3-256).  Both SHA3-256 and
the legacy Keccak-256 (the variant Ethereum uses for selectors and
topics) are the same sponge over Keccak-f[1600] with rate 1088; they
differ only in the domain-separation padding byte (0x06 for SHA3-256,
0x01 for Keccak-256).  Both are implemented here over Nat so the model is
executable and digests can be checked inside Lean. -/

/-- UTF-8 encoding of one code point (Python str.encode()). -/
def utf8EncodeChar (c : Char) : List Nat :=
  let n := c.toNat
  if n < 0x80 then [n]
  else if n < 0x800 then [0xC0 + n / 64, 0x80 + n % 64]
  else if n < 0x10000 then [0xE0 + n / 4096, 0x80 + n / 64 % 64, 0x80 + n % 64]
  else [0xF0 + n / 262144, 0x80 + n / 4096 % 64, 0x80 + n / 64 % 64, 0x80 + n % 64]

def utf8Bytes (s : String) : List Nat := s.data.flatMap utf8EncodeChar

/-- Rotate a 64-bit lane left by n bits. -/
def rotl64 (n : Nat) (x : Nat) : Nat := ((x <<< n) % (2 ^ 64)) ||| (x >>> (64 - n))

/-- The 24 round constants of the iota step (decimal). -/
def keccakRC : List Nat :=
  [1, 32898, 9223372036854808714,
   9223372039002292224, 32907, 2147483649,
   9223372039002292353, 9223372036854808585, 138,
   136, 2147516425, 2147483658,
   2147516555, 9223372036854775947, 9223372036854808713,
   9223372036854808579, 9223372036854808578, 9223372036854775936,
   32778, 9223372039002259466, 9223372039002292353,
   9223372036854808704, 2147483649, 9223372039002292232]

/-- Rotation offset of the rho step for the lane at index x + 5 * y. -/
def rotOffset : Nat → Nat
  | 1 => 1
  | 2 => 62
  | 3 => 28
  | 4 => 27
  | 5 => 36
  | 6 => 44
  | 7 => 6
  | 8 => 55
  | 9 => 20
  | 10 => 3
  | 11 => 10
  | 12 => 43
  | 13 => 25
  | 14 => 39
  | 15 => 41
  | 16 => 45
  | 17 => 15
  | 18 => 21
  | 19 => 8
  | 20 => 18
  | 21 => 2
  | 22 => 61
  | 23 => 56
  | 24 => 14
  | _ => 0

def keccakTheta (A : List Nat) : List Nat :=
  let C := (List.range 5).map (fun x =>
    A.getD x 0 ^^^ A.getD (x + 5) 0 ^^^ A.getD (x + 10) 0 ^^^ A.getD (x + 15) 0 ^^^ A.getD (x + 20) 0)
  let D := (List.range 5).map (fun x =>
    C.getD ((x + 4) % 5) 0 ^^^ rotl64 1 (C.getD ((x + 1) % 5) 0))
  (List.range 25).map (fun i => A.getD i 0 ^^^ D.getD (i % 5) 0)

def keccakRhoPi (A : List Nat) : List Nat :=
  (List.range 25).map (fun j =>
    let u := j % 5
    let v := j / 5
    let i := (u + 3 * v) % 5 + 5 * u
    rotl64 (rotOffset i) (A.getD i 0))

def keccakChi (B : List Nat) : List Nat :=
  (List.range 25).map (fun j =>
    let u := j % 5
    let v := j / 5
    B.getD j 0 ^^^
      ((B.getD ((u + 1) % 5 + 5 * v) 0 ^^^ 0xFFFFFFFFFFFFFFFF) &&& B.getD ((u + 2) % 5 + 5 * v) 0))

def keccakRound (A : List Nat) (rc : Nat) : List Nat :=
  match keccakChi (keccakRhoPi (keccakTheta A)) with
  | [] => []
  | a0 :: rest => (a0 ^^^ rc) :: rest

def keccakF (A : List Nat) : List Nat := keccakRC.foldl keccakRound A

/-- Multi-rate padding with domain byte padByte, to a multiple of the
rate (136 bytes). -/
def sha3Pad (bytes : List Nat) (padByte : Nat) : List Nat :=
  let q := 136 - bytes.length % 136
  if q = 1 then bytes ++ [padByte + 0x80]
  else bytes ++ [padByte] ++ List.replicate (q - 2) 0 ++ [0x80]

/-- A 64-bit lane from up to 8 little-endian bytes. -/
def bytesToLane (l : List Nat) : Nat := l.foldr (fun b acc => b + 256 * acc) 0

def blockLanes (block : List Nat) : List Nat :=
  (List.range 17).map (fun i => bytesToLane ((block.drop (8 * i)).take 8))

def absorbBlock (A : List Nat) (block : List Nat) : List Nat :=
  let lanes := blockLanes block
  keccakF ((List.range 25).map (fun i => A.getD i 0 ^^^ lanes.getD i 0))

/-- Fuel-indexed absorption loop (structural, so the kernel can evaluate
it); the fuel is an upper bound on the number of 136-byte blocks. -/
def absorbAux : Nat → List Nat → List Nat → List Nat
  | 0, A, _ => A
  | n + 1, A, bytes =>
    if bytes = [] then A
    else absorbAux n (absorbBlock A (bytes.take 136)) (bytes.drop 136)

def absorb (A : List Nat) (bytes : List Nat) : List Nat :=
  absorbAux (bytes.length / 136 + 1) A bytes

def laneBytes (x : Nat) : List Nat :=
  [x % 256, x / 2 ^ 8 % 256, x / 2 ^ 16 % 256, x / 2 ^ 24 % 256,
   x / 2 ^ 32 % 256, x / 2 ^ 40 % 256, x / 2 ^ 48 % 256, x / 2 ^ 56 % 256]

/-- The 32-byte digest of the 1088-rate Keccak sponge with the given
padding byte. -/
def spongeDigest (padByte : Nat) (msg : List Nat) : List Nat :=
  let A := absorb (List.replicate 25 0) (sha3Pad msg padByte)
  laneBytes (A.getD 0 0) ++ laneBytes (A.getD 1 0) ++ laneBytes (A.getD 2 0) ++ laneBytes (A.getD 3 0)

def hexDigitChar (n : Nat) : Char := if n < 10 then Char.ofNat (48 + n) else Char.ofNat (87 + n)

/-- Lowercase hex string of a byte list (Python bytes.hex() and
hashlib hexdigest). -/
def bytesToHex (bs : List Nat) : String :=
  String.mk (bs.flatMap (fun b => [hexDigitChar (b / 16), hexDigitChar (b % 16)]))

/-- hashlib.sha3_256(s.encode()).hexdigest() — the digest the source
actually computes (FIPS-202 SHA3-256, padding byte 0x06). -/
def sha3_256_hexdigest (s : String) : String := bytesToHex (spongeDigest 6 (utf8Bytes s))

/-- Hex digest of legacy Keccak-256 (padding byte 0x01), the variant
Ethereum derives selectors and topics from. -/
def keccak256_hexdigest (s : String) : String := bytesToHex (spongeDigest 1 (utf8Bytes s))

/-- SolidityHelper.keccak256: despite its name it returns
"0x" + sha3_256 hexdigest (source lines 12-14). -/
def keccak256 (data : String) : String := "0x" ++ sha3_256_hexdigest data

/-- Modelled from the spec (sections 6 and 9): the digest required for
ABI selector/topic derivation in the target ecosystem, i.e. Ethereum
Keccak-256, in the same "0x" + hexdigest presentation.  This definition
follows the spec words, for comparison with the keccak256 of the code. -/
def requiredKeccak256 (data : String) : String := "0x" ++ keccak256_hexdigest data

/-! ## Python exceptions -/

/-- The exceptions the embedded code can raise: KeyError from a dict
subscription, TypeError from a call with too many positional arguments,
NotImplementedError from the ABIEntry.signature base property,
AttributeError (object or contract name, member) from a failed attribute
lookup, and the external codec failure. -/
inductive PyError : Type where
  | keyError (key : String)
  | typeError
  | notImplementedError
  | attributeError (objName : String) (member : String)
  | codecError
  deriving DecidableEq, Repr

/-! ## ABI types and parameters (ABIType, ABIParameter) -/

mutual
/-- ABIType: the raw type string plus its components (source lines
17-54).  Components are ABIInput/ABIOutput objects; both carry a name,
a nested ABIType and (for inputs) an indexed flag. -/
inductive ABIType : Type where
  | mk (raw : String) (components : List ABIParameter)
inductive ABIParameter : Type where
  | mk (name : String) (type : ABIType) (indexed : Bool)
end

def ABIType.raw : ABIType → String
  | .mk r _ => r

def ABIType.components : ABIType → List ABIParameter
  | .mk _ cs => cs

def ABIParameter.name : ABIParameter → String
  | .mk n _ _ => n

def ABIParameter.type : ABIParameter → ABIType
  | .mk _ t _ => t

def ABIParameter.indexed : ABIParameter → Bool
  | .mk _ _ i => i

/-- ABIType.is_tuple (source line 41). -/
def ABIType.is_tuple (t : ABIType) : Bool := pyStartsWith t.raw "tuple"

mutual
/-- ABIType.canonical_type (source lines 43-54). -/
def ABIType.canonical_type : ABIType → String
  | .mk raw comps =>
    if pyStartsWith raw "tuple" then
      "(" ++ pyJoin "," (canonList comps) ++ ")" ++ pyDrop raw 5
    else raw
/-- The generator expression (c.type.canonical_type for c in components). -/
def canonList : List ABIParameter → List String
  | [] => []
  | .mk _ t _ :: rest => ABIType.canonical_type t :: canonList rest
end

/-! ## Raw JSON descriptors

Raw ABI JSON is modeled structurally: each record is a struct whose
fields are Option-valued (a missing dict key is none). -/

mutual
/-- One raw parameter descriptor: a dict with optional name, type,
indexed and components fields. -/
inductive RawParamDesc : Type where
  | mk (name : Option String) (type : Option String) (indexed : Option Bool)
       (components : OptRawParams)
/-- An optional raw components array (no value when the dict key is
missing or null). -/
inductive OptRawParams : Type where
  | none
  | some (l : RawParams)
/-- A raw JSON array of parameter descriptors. -/
inductive RawParams : Type where
  | nil
  | cons (head : RawParamDesc) (tail : RawParams)
end

/-- Convenience constructor for concrete raw descriptor arrays. -/
def RawParams.ofList : List RawParamDesc → RawParams
  | [] => .nil
  | p :: ps => .cons p (RawParams.ofList ps)

mutual
/-- ABIType.__init__ with is_input = True (source lines 22-32):
components default to [] when absent (components or []); each component
is built as an ABIInput. -/
def buildABIType (type_str : String) : OptRawParams → Except PyError ABIType
  | .none => .ok (ABIType.mk type_str [])
  | .some cs =>
    match buildComponents cs with
    | .error e => .error e
    | .ok ps => .ok (ABIType.mk type_str ps)
/-- The component list comprehension of ABIType.__init__ in the input
case: for each c it evaluates c.get("name", ""), c["type"] (KeyError
when the type field is missing), c.get("indexed", False) and
c.get("components"), then builds the ABIInput, whose own ABIType
recurses. -/
def buildComponents : RawParams → Except PyError (List ABIParameter)
  | .nil => .ok []
  | .cons (.mk n t ix cs) rest =>
    match t with
    | none => .error (.keyError "type")
    | some ts =>
      match buildABIType ts cs with
      | .error e => .error e
      | .ok ty =>
        match buildComponents rest with
        | .error e => .error e
        | .ok tl => .ok (ABIParameter.mk (n.getD "") ty (ix.getD false) :: tl)
end

/-- ABIType.__init__ with is_input = False.  The comprehension of line
25 calls ABIOutput with four positional arguments, but
ABIOutput.__init__ accepts only three, so the first component raises
TypeError — after its c["type"] subscription, whose KeyError would come
first.  An absent or empty components list builds fine. -/
def buildABITypeOutput (type_str : String) : OptRawParams → Except PyError ABIType
  | .none => .ok (ABIType.mk type_str [])
  | .some .nil => .ok (ABIType.mk type_str [])
  | .some (.cons (.mk _ t _ _) _) =>
    match t with
    | none => .error (.keyError "type")
    | some _ => .error .typeError

/-- The outputs comprehension of ABIEntryFactory.create (source lines
175-178): ABIOutput(o.get("name", ""), o["type"], o.get("components")),
whose ABIType is built with is_input = False.  ABIOutput stores no
indexed flag; the model records false. -/
def buildOutputs : RawParams → Except PyError (List ABIParameter)
  | .nil => .ok []
  | .cons (.mk n t _ cs) rest =>
    match t with
    | none => .error (.keyError "type")
    | some ts =>
      match buildABITypeOutput ts cs with
      | .error e => .error e
      | .ok ty =>
        match buildOutputs rest with
        | .error e => .error e
        | .ok tl => .ok (ABIParameter.mk (n.getD "") ty false :: tl)

/-! ## ABI entries (ABIEntry and its subclasses) -/

/-- The ABIEntry class hierarchy (source lines 81-159): one constructor
per Python class.  baseABI is a plain ABIEntry instance, carrying the
entry_type value stored by __init__ (an optional string, since
entry.get("type") may be None). -/
inductive ABIEntry : Type where
  | functionABI (name : String) (inputs : List ABIParameter)
      (outputs : List ABIParameter) (state_mutability : String)
  | eventABI (name : String) (inputs : List ABIParameter) (anonymous : Bool)
  | constructorABI (inputs : List ABIParameter) (state_mutability : String)
  | errorABI (name : String) (inputs : List ABIParameter)
  | baseABI (name : String) (inputs : List ABIParameter) (entry_type : Option String)

def ABIEntry.name : ABIEntry → String
  | .functionABI n _ _ _ => n
  | .eventABI n _ _ => n
  | .constructorABI _ _ => ""
  | .errorABI n _ => n
  | .baseABI n _ _ => n

def ABIEntry.inputs : ABIEntry → List ABIParameter
  | .functionABI _ i _ _ => i
  | .eventABI _ i _ => i
  | .constructorABI i _ => i
  | .errorABI _ i => i
  | .baseABI _ i _ => i

def ABIEntry.entry_type : ABIEntry → Option String
  | .functionABI _ _ _ _ => some "function"
  | .eventABI _ _ _ => some "event"
  | .constructorABI _ _ => some "constructor"
  | .errorABI _ _ => some "error"
  | .baseABI _ _ t => t

/-- The Python class name, used in AttributeError messages. -/
def ABIEntry.className : ABIEntry → String
  | .functionABI _ _ _ _ => "FunctionABI"
  | .eventABI _ _ _ => "EventABI"
  | .constructorABI _ _ => "ConstructorABI"
  | .errorABI _ _ => "ErrorABI"
  | .baseABI _ _ _ => "ABIEntry"

def isFunctionABI : ABIEntry → Bool
  | .functionABI _ _ _ _ => true
  | _ => false

def isEventABI : ABIEntry → Bool
  | .eventABI _ _ _ => true
  | _ => false

def isConstructorABI : ABIEntry → Bool
  | .constructorABI _ _ => true
  | _ => false

def isErrorABI : ABIEntry → Bool
  | .errorABI _ _ => true
  | _ => false

def isBaseABI : ABIEntry → Bool
  | .baseABI _ _ _ => true
  | _ => false

/-- The signature body shared verbatim by FunctionABI, EventABI and
ErrorABI: name + "(" + ",".join(canonical input types) + ")". -/
def entrySignatureStr (name : String) (inputs : List ABIParameter) : String :=
  name ++ "(" ++ pyJoin "," (canonList inputs) ++ ")"

/-- The signature property.  FunctionABI/EventABI/ErrorABI return the
signature string, ConstructorABI returns None (source line 143), and a
plain ABIEntry raises NotImplementedError (source line 91). -/
def ABIEntry.signature : ABIEntry → Except PyError (Option String)
  | .functionABI n ins _ _ => .ok (some (entrySignatureStr n ins))
  | .eventABI n ins _ => .ok (some (entrySignatureStr n ins))
  | .errorABI n ins => .ok (some (entrySignatureStr n ins))
  | .constructorABI _ _ => .ok none
  | .baseABI _ _ _ => .error .notImplementedError

/-- The selector property.  FunctionABI takes keccak256(sig)[:8] (source
line 109), EventABI the full digest (line 131), ErrorABI
keccak256(sig)[:10] (line 159).  The other classes have no such
attribute, so Python raises AttributeError. -/
def ABIEntry.selector : ABIEntry → Except PyError String
  | .functionABI n ins _ _ => .ok (pyTake (keccak256 (entrySignatureStr n ins)) 8)
  | .eventABI n ins _ => .ok (keccak256 (entrySignatureStr n ins))
  | .errorABI n ins => .ok (pyTake (keccak256 (entrySignatureStr n ins)) 10)
  | e => .error (.attributeError e.className "selector")

/-- FunctionABI.encode_abi (source lines 111-114): no arity check; the
external codec (eth_abi.encode) is applied to the list of ABIType
objects (not canonical strings) and the ordered args, and the result is
the selector string concatenated with the hex of the codec output.  Only
FunctionABI has this method; other classes raise AttributeError. -/
def ABIEntry.encode_abi {α : Type} (abi_encode : List ABIType → List α → Except PyError (List Nat)) :
    ABIEntry → List α → Except PyError String
  | .functionABI n ins _ _, args =>
    match abi_encode (ins.map ABIParameter.type) args with
    | .error e => .error e
    | .ok encoded_args =>
      .ok (pyTake (keccak256 (entrySignatureStr n ins)) 8 ++ bytesToHex encoded_args)
  | e, _ => .error (.attributeError e.className "encode_abi")

/-! ## The factory (ABIEntryFactory) -/

/-- One raw ABI entry record: a dict with the optional fields the source
reads. -/
structure RawEntry : Type where
  type : Option String
  name : Option String
  inputs : Option RawParams
  outputs : Option RawParams
  stateMutability : Option String
  anonymous : Option Bool

/-- ABIEntryFactory.create (source lines 165-200).  Inputs and outputs
are built before the type dispatch, exactly as in the source, so a
malformed input fails create even for fallback/receive entries. -/
def ABIEntryFactory.create (entry : RawEntry) : Except PyError ABIEntry :=
  let entry_type := entry.type
  let name := entry.name.getD ""
  match buildComponents (entry.inputs.getD .nil) with
  | .error e => .error e
  | .ok inputs =>
    match (match entry.outputs with
           | some os => buildOutputs os
           | none => .ok []) with
    | .error e => .error e
    | .ok outputs =>
      let state_mutability := entry.stateMutability.getD ""
      match entry_type with
      | some "function" => .ok (.functionABI name inputs outputs state_mutability)
      | some "event" => .ok (.eventABI name inputs (entry.anonymous.getD false))
      | some "constructor" => .ok (.constructorABI inputs state_mutability)
      | some "error" => .ok (.errorABI name inputs)
      | some "fallback" => .ok (.baseABI "" [] (some "fallback"))
      | some "receive" => .ok (.baseABI "" [] (some "receive"))
      | t => .ok (.baseABI name inputs t)

/-! ## Python dicts

Insertion-ordered string-keyed dicts as association lists; assignment to
an existing key replaces its value in place, a new key is appended. -/

namespace Dict

def lookup {α : Type} (k : String) : List (String × α) → Option α
  | [] => none
  | (k', v) :: t => if k' = k then some v else lookup k t

def insert {α : Type} (k : String) (v : α) : List (String × α) → List (String × α)
  | [] => [(k, v)]
  | (k', v') :: t => if k' = k then (k, v) :: t else (k', v') :: insert k v t

def values {α : Type} (l : List (String × α)) : List α := l.map Prod.snd

end Dict

/-! ## Contract -/

/-- Contract (source lines 203-273): the parse-ordered entry list plus
the by-kind indices. -/
structure Contract : Type where
  name : String
  entries : List ABIEntry
  functions : List (String × ABIEntry)
  events : List (String × ABIEntry)
  constructors : List ABIEntry
  fallbacks : List ABIEntry
  receives : List ABIEntry
  errors : List (String × ABIEntry)

/-- One iteration of Contract._parse_abi (source lines 230-245): append
the entry to entries, then classify by isinstance / entry_type. -/
def Contract.addEntry (c : Contract) (e : ABIEntry) : Contract :=
  let c := { c with entries := c.entries ++ [e] }
  match e with
  | .functionABI n _ _ _ => { c with functions := Dict.insert n e c.functions }
  | .eventABI n _ _ => { c with events := Dict.insert n e c.events }
  | .constructorABI _ _ => { c with constructors := c.constructors ++ [e] }
  | .errorABI n _ => { c with errors := Dict.insert n e c.errors }
  | .baseABI _ _ t =>
    if t = some "fallback" then { c with fallbacks := c.fallbacks ++ [e] }
    else if t = some "receive" then { c with receives := c.receives ++ [e] }
    else c

def Contract.empty (name : String) : Contract :=
  { name := name, entries := [], functions := [], events := [],
    constructors := [], fallbacks := [], receives := [], errors := [] }

def Contract.parseGo (c : Contract) : List RawEntry → Except PyError Contract
  | [] => .ok c
  | r :: rs =>
    match ABIEntryFactory.create r with
    | .error e => .error e
    | .ok e => Contract.parseGo (Contract.addEntry c e) rs

/-- Contract.__init__ / Contract._parse_abi over a raw ABI list. -/
def Contract.parse (name : String) (abi : List RawEntry) : Except PyError Contract :=
  Contract.parseGo (Contract.empty name) abi

/-- self._functions.get(name) (source line 248). -/
def Contract.get_function (c : Contract) (name : String) : Option ABIEntry :=
  Dict.lookup name c.functions

def Contract.get_event (c : Contract) (name : String) : Option ABIEntry :=
  Dict.lookup name c.events

def Contract.get_error (c : Contract) (name : String) : Option ABIEntry :=
  Dict.lookup name c.errors

/-- self._constructors[0] if self._constructors else None (line 257). -/
def Contract.get_constructor (c : Contract) : Option ABIEntry :=
  c.constructors.head?

/-- Contract.__getattr__ (source lines 262-270): probe functions, then
events, then errors; raise AttributeError when none match. -/
def Contract.getattr (c : Contract) (name : String) : Except PyError ABIEntry :=
  match Dict.lookup name c.functions with
  | some f => .ok f
  | none =>
    match Dict.lookup name c.events with
    | some ev => .ok ev
    | none =>
      match Dict.lookup name c.errors with
      | some er => .ok er
      | none => .error (.attributeError c.name name)

/-! ## ContractCollection -/

/-- One value of the compiled_data["contracts"] mapping: a dict with an
optional abi field. -/
structure CompiledContractData : Type where
  abi : Option (List RawEntry)

/-- The compiled_data argument: a dict with an optional contracts
mapping (compiled_data.get("contracts", {})). -/
structure CompiledData : Type where
  contracts : Option (List (String × CompiledContractData))

def ContractCollection.buildGo (acc : List (String × Contract)) :
    List (String × CompiledContractData) → Except PyError (List (String × Contract))
  | [] => .ok acc
  | (full_name, data) :: rest =>
    let contract_name := trailName full_name
    match Contract.parse contract_name (data.abi.getD []) with
    | .error e => .error e
    | .ok c => ContractCollection.buildGo (Dict.insert contract_name c acc) rest

/-- ContractCollection: the name-keyed contract dict. -/
structure ContractCollection : Type where
  contracts : List (String × Contract)

/-- ContractCollection.__init__ (source lines 282-287): each contract is
stored under the substring after the last colon of its fully-qualified
key, later entries overwriting earlier ones. -/
def ContractCollection.build (compiled_data : CompiledData) : Except PyError ContractCollection :=
  match ContractCollection.buildGo [] (compiled_data.contracts.getD []) with
  | .error e => .error e
  | .ok m => .ok ⟨m⟩

/-- ContractCollection.__getitem__ (source lines 289-291): a plain dict
subscription, raising KeyError when the name is absent. -/
def ContractCollection.getitem (cc : ContractCollection) (name : String) : Except PyError Contract :=
  match Dict.lookup name cc.contracts with
  | some c => .ok c
  | none => .error (.keyError name)

/-- The last element of the compiled-data iteration whose trailing
contract name is n (none when no key matches). -/
def lastMatch (n : String) : List (String × CompiledContractData) →
    Option (String × CompiledContractData)
  | [] => none
  | p :: rest =>
    match lastMatch n rest with
    | some q => some q
    | none => if trailName p.1 = n then some p else none

/-! ## Witness data

Concrete inputs used by the witness theorems below. -/

def transferInputs : List ABIParameter :=
  [ABIParameter.mk "to" (ABIType.mk "address" []) false,
   ABIParameter.mk "value" (ABIType.mk "uint256" []) false]

def transferFn : ABIEntry := .functionABI "transfer" transferInputs [] "nonpayable"

/-- A stand-in external codec returning one byte (0xab). -/
def constCodec : List ABIType → List Nat → Except PyError (List Nat) := fun _ _ => .ok [171]

def deepComps : List ABIParameter :=
  [ABIParameter.mk "" (ABIType.mk "tuple"
    [ABIParameter.mk "x" (ABIType.mk "uint8" []) false,
     ABIParameter.mk "y" (ABIType.mk "tuple[2]"
       [ABIParameter.mk "" (ABIType.mk "bool" []) false]) false]) false]

def deepTuple : ABIType := ABIType.mk "tuple[]" deepComps

def unknownKindContract : Contract :=
  { name := "C", entries := [.baseABI "x" [] (some "banana")], functions := [], events := [],
    constructors := [], fallbacks := [], receives := [], errors := [] }

def transferRaw : RawEntry :=
  ⟨some "function", some "transfer",
   some (RawParams.ofList
     [RawParamDesc.mk (some "to") (some "address") none .none,
      RawParamDesc.mk (some "value") (some "uint256") none .none]),
   some .nil, some "nonpayable", none⟩

def transferEventRaw : RawEntry :=
  ⟨some "event", some "Transfer", some .nil, none, none, some false⟩

def fallbackRaw : RawEntry :=
  ⟨some "fallback", some "junk",
   some (RawParams.ofList [RawParamDesc.mk (some "x") (some "uint8") none .none]),
   none, none, none⟩

def receiveRaw : RawEntry := ⟨some "receive", none, none, none, none, none⟩

def ctorRaw : RawEntry :=
  ⟨some "constructor", none,
   some (RawParams.ofList [RawParamDesc.mk (some "o") (some "address") none .none]),
   none, some "payable", none⟩

def sampleAbi : List RawEntry :=
  [transferRaw, transferEventRaw, ctorRaw, fallbackRaw, receiveRaw,
   ⟨some "banana", some "x", none, none, none, none⟩]

def sampleContract : Contract :=
  ((Contract.parse "Sample" sampleAbi).toOption).getD (Contract.empty "")

def dupData : CompiledData :=
  ⟨some [("a.sol:Foo", ⟨some []⟩), ("b.sol:Foo", ⟨some [receiveRaw]⟩)]⟩

def dupCollection : ContractCollection :=
  ((ContractCollection.build dupData).toOption).getD ⟨[]⟩

def fooContract : Contract :=
  ((Contract.parse "Foo" [receiveRaw]).toOption).getD (Contract.empty "")

/-! ## The entries/index invariant of Contract (claim C6, amended) -/

/-- The invariant maintained by Contract._parse_abi: every indexed entry
is in entries with the right kind and key, and every entry in entries of
a recognized kind is reachable through its index (for the name-keyed
kinds, the index binds its name to a same-kind entry — the last parsed
one — rather than necessarily the entry itself). -/
def entriesIndexInvariant (c : Contract) : Prop :=
  (∀ p ∈ c.functions, p.2 ∈ c.entries ∧ isFunctionABI p.2 = true ∧ p.1 = p.2.name) ∧
  (∀ p ∈ c.events, p.2 ∈ c.entries ∧ isEventABI p.2 = true ∧ p.1 = p.2.name) ∧
  (∀ p ∈ c.errors, p.2 ∈ c.entries ∧ isErrorABI p.2 = true ∧ p.1 = p.2.name) ∧
  (∀ e ∈ c.constructors, e ∈ c.entries ∧ isConstructorABI e = true) ∧
  (∀ e ∈ c.fallbacks, e ∈ c.entries) ∧
  (∀ e ∈ c.receives, e ∈ c.entries) ∧
  (∀ e ∈ c.entries,
    (isFunctionABI e = true →
      ∃ v, Dict.lookup e.name c.functions = some v ∧ isFunctionABI v = true) ∧
    (isEventABI e = true →
      ∃ v, Dict.lookup e.name c.events = some v ∧ isEventABI v = true) ∧
    (isErrorABI e = true →
      ∃ v, Dict.lookup e.name c.errors = some v ∧ isErrorABI v = true) ∧
    (isConstructorABI e = true → e ∈ c.constructors) ∧
    (e.entry_type = some "fallback" → isBaseABI e = true → e ∈ c.fallbacks) ∧
    (e.entry_type = some "receive" → isBaseABI e = true → e ∈ c.receives))

/-! ## Helper lemmas -/

theorem strMk_length (l : List Char) : (String.mk l).length = l.length := rfl

theorem strData_length (s : String) : s.length = s.data.length := rfl

theorem pyTake_length (s : String) (n : Nat) : (pyTake s n).length = min n s.length := by
  show (s.data.take n).length = min n s.data.length
  exact List.length_take n s.data

theorem strAppend_length (a b : String) : (a ++ b).length = a.length + b.length := by
  cases a with
  | mk la =>
    cases b with
    | mk lb =>
      show (la ++ lb).length = la.length + lb.length
      exact List.length_append la lb

theorem hexPairs_length (bs : List Nat) :
    (bs.flatMap fun b => [hexDigitChar (b / 16), hexDigitChar (b % 16)]).length = 2 * bs.length := by
  induction bs with
  | nil => rfl
  | cons b t ih =>
    simp only [List.flatMap_cons, List.length_append, List.length_cons, List.length_nil, ih]
    omega

theorem bytesToHex_length (bs : List Nat) : (bytesToHex bs).length = 2 * bs.length :=
  hexPairs_length bs

theorem spongeDigest_length (p : Nat) (m : List Nat) : (spongeDigest p m).length = 32 := by
  simp [spongeDigest, laneBytes]

theorem sha3_256_hexdigest_length (s : String) : (sha3_256_hexdigest s).length = 64 := by
  rw [sha3_256_hexdigest, bytesToHex_length, spongeDigest_length]

theorem keccak256_length (s : String) : (keccak256 s).length = 66 := by
  rw [keccak256, strAppend_length, sha3_256_hexdigest_length]
  decide

theorem canonList_eq_map (l : List ABIParameter) :
    canonList l = l.map (fun p => p.type.canonical_type) := by
  induction l with
  | nil => rfl
  | cons p t ih =>
    cases p with
    | mk n ty ix => simp [canonList, ABIParameter.type, ih]

theorem Dict.lookup_insert_self {α : Type} (k : String) (v : α) (l : List (String × α)) :
    Dict.lookup k (Dict.insert k v l) = some v := by
  induction l with
  | nil => simp [Dict.insert, Dict.lookup]
  | cons p t ih =>
    cases p with
    | mk k' v' =>
      by_cases h : k' = k
      · simp [Dict.insert, Dict.lookup, h]
      · simp [Dict.insert, Dict.lookup, h, ih]

theorem Dict.lookup_insert_ne {α : Type} (k k'' : String) (v : α) (l : List (String × α))
    (h : k ≠ k'') : Dict.lookup k'' (Dict.insert k v l) = Dict.lookup k'' l := by
  induction l with
  | nil => simp [Dict.insert, Dict.lookup, h]
  | cons p t ih =>
    cases p with
    | mk k' v' =>
      by_cases hk : k' = k
      · subst hk
        simp [Dict.insert, Dict.lookup, h]
      · simp [Dict.insert, Dict.lookup, hk, ih]

theorem Dict.mem_insert {α : Type} (p : String × α) (k : String) (v : α)
    (l : List (String × α)) : p ∈ Dict.insert k v l → p = (k, v) ∨ p ∈ l := by
  induction l with
  | nil => simp [Dict.insert]
  | cons q t ih =>
    cases q with
    | mk k' v' =>
      by_cases hk : k' = k
      · subst hk
        simp only [Dict.insert, if_true, List.mem_cons]
        tauto
      · simp only [Dict.insert, hk, if_false, List.mem_cons]
        rintro (h | h)
        · tauto
        · rcases ih h with h' | h'
          · exact Or.inl h'
          · tauto

theorem Dict.mem_keys_insert {α : Type} (a k : String) (v : α) (l : List (String × α)) :
    a ∈ (Dict.insert k v l).map Prod.fst → a ∈ l.map Prod.fst ∨ a = k := by
  induction l with
  | nil => simp [Dict.insert]
  | cons q t ih =>
    cases q with
    | mk k' v' =>
      by_cases hk : k' = k
      · subst hk
        simp only [Dict.insert, if_true, List.map_cons, List.mem_cons]
        tauto
      · simp only [Dict.insert, hk, if_false, List.map_cons, List.mem_cons]
        rintro (h | h)
        · exact Or.inl (Or.inl h)
        · rcases ih h with h' | h'
          · exact Or.inl (Or.inr h')
          · exact Or.inr h'

theorem Dict.nodup_keys_insert {α : Type} (k : String) (v : α) (l : List (String × α))
    (h : (l.map Prod.fst).Nodup) : ((Dict.insert k v l).map Prod.fst).Nodup := by
  induction l with
  | nil => simp [Dict.insert]
  | cons q t ih =>
    cases q with
    | mk k' v' =>
      simp only [List.map_cons, List.nodup_cons] at h
      by_cases hk : k' = k
      · subst hk
        simpa [Dict.insert, List.nodup_cons] using h
      · simp only [Dict.insert, hk, if_false, List.map_cons, List.nodup_cons]
        refine ⟨fun hmem => ?_, ih h.2⟩
        rcases Dict.mem_keys_insert k' k v t hmem with h' | h'
        · exact h.1 h'
        · exact hk h'

theorem addEntry_invariant (c : Contract) (e : ABIEntry)
    (hc : entriesIndexInvariant c) : entriesIndexInvariant (Contract.addEntry c e) := by
  obtain ⟨hf, he, her, hct, hfb, hrc, hconv⟩ := hc
  cases e with
  | functionABI n i o s =>
    simp only [Contract.addEntry]
    refine ⟨?_, ?_, ?_, ?_, ?_, ?_, ?_⟩
    · intro p hp
      rcases Dict.mem_insert p n (.functionABI n i o s) c.functions hp with h | h
      · subst h
        exact ⟨List.mem_append_right _ (List.mem_singleton_self _), rfl, rfl⟩
      · obtain ⟨h1, h2, h3⟩ := hf p h
        exact ⟨List.mem_append_left _ h1, h2, h3⟩
    · intro p hp
      obtain ⟨h1, h2, h3⟩ := he p hp
      exact ⟨List.mem_append_left _ h1, h2, h3⟩
    · intro p hp
      obtain ⟨h1, h2, h3⟩ := her p hp
      exact ⟨List.mem_append_left _ h1, h2, h3⟩
    · intro e' he'
      obtain ⟨h1, h2⟩ := hct e' he'
      exact ⟨List.mem_append_left _ h1, h2⟩
    · intro e' he'
      exact List.mem_append_left _ (hfb e' he')
    · intro e' he'
      exact List.mem_append_left _ (hrc e' he')
    · intro e' he'
      rcases List.mem_append.mp he' with h | h
      · obtain ⟨q1, q2, q3, q4, q5, q6⟩ := hconv e' h
        refine ⟨?_, q2, q3, q4, q5, q6⟩
        intro hfe
        by_cases hn : e'.name = n
        · refine ⟨.functionABI n i o s, ?_, rfl⟩
          rw [hn]
          exact Dict.lookup_insert_self n _ c.functions
        · obtain ⟨v, hv1, hv2⟩ := q1 hfe
          refine ⟨v, ?_, hv2⟩
          rw [Dict.lookup_insert_ne n e'.name _ c.functions (fun hh => hn hh.symm)]
          exact hv1
      · have hsing : e' = .functionABI n i o s := List.mem_singleton.mp h
        subst hsing
        refine ⟨fun _ => ⟨_, Dict.lookup_insert_self n _ c.functions, rfl⟩,
          fun hx => absurd hx (by simp [isEventABI]),
          fun hx => absurd hx (by simp [isErrorABI]),
          fun hx => absurd hx (by simp [isConstructorABI]),
          fun hx => absurd hx (by simp [ABIEntry.entry_type]),
          fun hx => absurd hx (by simp [ABIEntry.entry_type])⟩
  | eventABI n i anon =>
    simp only [Contract.addEntry]
    refine ⟨?_, ?_, ?_, ?_, ?_, ?_, ?_⟩
    · intro p hp
      obtain ⟨h1, h2, h3⟩ := hf p hp
      exact ⟨List.mem_append_left _ h1, h2, h3⟩
    · intro p hp
      rcases Dict.mem_insert p n (.eventABI n i anon) c.events hp with h | h
      · subst h
        exact ⟨List.mem_append_right _ (List.mem_singleton_self _), rfl, rfl⟩
      · obtain ⟨h1, h2, h3⟩ := he p h
        exact ⟨List.mem_append_left _ h1, h2, h3⟩
    · intro p hp
      obtain ⟨h1, h2, h3⟩ := her p hp
      exact ⟨List.mem_append_left _ h1, h2, h3⟩
    · intro e' he'
      obtain ⟨h1, h2⟩ := hct e' he'
      exact ⟨List.mem_append_left _ h1, h2⟩
    · intro e' he'
      exact List.mem_append_left _ (hfb e' he')
    · intro e' he'
      exact List.mem_append_left _ (hrc e' he')
    · intro e' he'
      rcases List.mem_append.mp he' with h | h
      · obtain ⟨q1, q2, q3, q4, q5, q6⟩ := hconv e' h
        refine ⟨q1, ?_, q3, q4, q5, q6⟩
        intro hee
        by_cases hn : e'.name = n
        · refine ⟨.eventABI n i anon, ?_, rfl⟩
          rw [hn]
          exact Dict.lookup_insert_self n _ c.events
        · obtain ⟨v, hv1, hv2⟩ := q2 hee
          refine ⟨v, ?_, hv2⟩
          rw [Dict.lookup_insert_ne n e'.name _ c.events (fun hh => hn hh.symm)]
          exact hv1
      · have hsing : e' = .eventABI n i anon := List.mem_singleton.mp h
        subst hsing
        refine ⟨fun hx => absurd hx (by simp [isFunctionABI]),
          fun _ => ⟨_, Dict.lookup_insert_self n _ c.events, rfl⟩,
          fun hx => absurd hx (by simp [isErrorABI]),
          fun hx => absurd hx (by simp [isConstructorABI]),
          fun hx => absurd hx (by simp [ABIEntry.entry_type]),
          fun hx => absurd hx (by simp [ABIEntry.entry_type])⟩
  | errorABI n i =>
    simp only [Contract.addEntry]
    refine ⟨?_, ?_, ?_, ?_, ?_, ?_, ?_⟩
    · intro p hp
      obtain ⟨h1, h2, h3⟩ := hf p hp
      exact ⟨List.mem_append_left _ h1, h2, h3⟩
    · intro p hp
      obtain ⟨h1, h2, h3⟩ := he p hp
      exact ⟨List.mem_append_left _ h1, h2, h3⟩
    · intro p hp
      rcases Dict.mem_insert p n (.errorABI n i) c.errors hp with h | h
      · subst h
        exact ⟨List.mem_append_right _ (List.mem_singleton_self _), rfl, rfl⟩
      · obtain ⟨h1, h2, h3⟩ := her p h
        exact ⟨List.mem_append_left _ h1, h2, h3⟩
    · intro e' he'
      obtain ⟨h1, h2⟩ := hct e' he'
      exact ⟨List.mem_append_left _ h1, h2⟩
    · intro e' he'
      exact List.mem_append_left _ (hfb e' he')
    · intro e' he'
      exact List.mem_append_left _ (hrc e' he')
    · intro e' he'
      rcases List.mem_append.mp he' with h | h
      · obtain ⟨q1, q2, q3, q4, q5, q6⟩ := hconv e' h
        refine ⟨q1, q2, ?_, q4, q5, q6⟩
        intro her'
        by_cases hn : e'.name = n
        · refine ⟨.errorABI n i, ?_, rfl⟩
          rw [hn]
          exact Dict.lookup_insert_self n _ c.errors
        · obtain ⟨v, hv1, hv2⟩ := q3 her'
          refine ⟨v, ?_, hv2⟩
          rw [Dict.lookup_insert_ne n e'.name _ c.errors (fun hh => hn hh.symm)]
          exact hv1
      · have hsing : e' = .errorABI n i := List.mem_singleton.mp h
        subst hsing
        refine ⟨fun hx => absurd hx (by simp [isFunctionABI]),
          fun hx => absurd hx (by simp [isEventABI]),
          fun _ => ⟨_, Dict.lookup_insert_self n _ c.errors, rfl⟩,
          fun hx => absurd hx (by simp [isConstructorABI]),
          fun hx => absurd hx (by simp [ABIEntry.entry_type]),
          fun hx => absurd hx (by simp [ABIEntry.entry_type])⟩
  | constructorABI i s =>
    simp only [Contract.addEntry]
    refine ⟨?_, ?_, ?_, ?_, ?_, ?_, ?_⟩
    · intro p hp
      obtain ⟨h1, h2, h3⟩ := hf p hp
      exact ⟨List.mem_append_left _ h1, h2, h3⟩
    · intro p hp
      obtain ⟨h1, h2, h3⟩ := he p hp
      exact ⟨List.mem_append_left _ h1, h2, h3⟩
    · intro p hp
      obtain ⟨h1, h2, h3⟩ := her p hp
      exact ⟨List.mem_append_left _ h1, h2, h3⟩
    · intro e' he'
      rcases List.mem_append.mp he' with h | h
      · obtain ⟨h1, h2⟩ := hct e' h
        exact ⟨List.mem_append_left _ h1, h2⟩
      · have hsing : e' = .constructorABI i s := List.mem_singleton.mp h
        subst hsing
        exact ⟨List.mem_append_right _ (List.mem_singleton_self _), rfl⟩
    · intro e' he'
      exact List.mem_append_left _ (hfb e' he')
    · intro e' he'
      exact List.mem_append_left _ (hrc e' he')
    · intro e' he'
      rcases List.mem_append.mp he' with h | h
      · obtain ⟨q1, q2, q3, q4, q5, q6⟩ := hconv e' h
        exact ⟨q1, q2, q3, fun hx => List.mem_append_left _ (q4 hx), q5, q6⟩
      · have hsing : e' = .constructorABI i s := List.mem_singleton.mp h
        subst hsing
        refine ⟨fun hx => absurd hx (by simp [isFunctionABI]),
          fun hx => absurd hx (by simp [isEventABI]),
          fun hx => absurd hx (by simp [isErrorABI]),
          fun _ => List.mem_append_right _ (List.mem_singleton_self _),
          fun hx => absurd hx (by simp [ABIEntry.entry_type]),
          fun hx => absurd hx (by simp [ABIEntry.entry_type])⟩
  | baseABI n i t =>
    by_cases hft : t = some "fallback"
    · subst hft
      simp only [Contract.addEntry, if_true]
      refine ⟨?_, ?_, ?_, ?_, ?_, ?_, ?_⟩
      · intro p hp
        obtain ⟨h1, h2, h3⟩ := hf p hp
        exact ⟨List.mem_append_left _ h1, h2, h3⟩
      · intro p hp
        obtain ⟨h1, h2, h3⟩ := he p hp
        exact ⟨List.mem_append_left _ h1, h2, h3⟩
      · intro p hp
        obtain ⟨h1, h2, h3⟩ := her p hp
        exact ⟨List.mem_append_left _ h1, h2, h3⟩
      · intro e' he'
        obtain ⟨h1, h2⟩ := hct e' he'
        exact ⟨List.mem_append_left _ h1, h2⟩
      · intro e' he'
        rcases List.mem_append.mp he' with h | h
        · exact List.mem_append_left _ (hfb e' h)
        · have hsing : e' = .baseABI n i (some "fallback") := List.mem_singleton.mp h
          subst hsing
          exact List.mem_append_right _ (List.mem_singleton_self _)
      · intro e' he'
        exact List.mem_append_left _ (hrc e' he')
      · intro e' he'
        rcases List.mem_append.mp he' with h | h
        · obtain ⟨q1, q2, q3, q4, q5, q6⟩ := hconv e' h
          exact ⟨q1, q2, q3, q4, fun hx hb => List.mem_append_left _ (q5 hx hb), q6⟩
        · have hsing : e' = .baseABI n i (some "fallback") := List.mem_singleton.mp h
          subst hsing
          refine ⟨fun hx => absurd hx (by simp [isFunctionABI]),
            fun hx => absurd hx (by simp [isEventABI]),
            fun hx => absurd hx (by simp [isErrorABI]),
            fun hx => absurd hx (by simp [isConstructorABI]),
            fun _ _ => List.mem_append_right _ (List.mem_singleton_self _),
            fun hx => absurd hx (by simp [ABIEntry.entry_type])⟩
    · by_cases hrt : t = some "receive"
      · subst hrt
        simp only [Contract.addEntry, hft, if_false, if_true]
        refine ⟨?_, ?_, ?_, ?_, ?_, ?_, ?_⟩
        · intro p hp
          obtain ⟨h1, h2, h3⟩ := hf p hp
          exact ⟨List.mem_append_left _ h1, h2, h3⟩
        · intro p hp
          obtain ⟨h1, h2, h3⟩ := he p hp
          exact ⟨List.mem_append_left _ h1, h2, h3⟩
        · intro p hp
          obtain ⟨h1, h2, h3⟩ := her p hp
          exact ⟨List.mem_append_left _ h1, h2, h3⟩
        · intro e' he'
          obtain ⟨h1, h2⟩ := hct e' he'
          exact ⟨List.mem_append_left _ h1, h2⟩
        · intro e' he'
          exact List.mem_append_left _ (hfb e' he')
        · intro e' he'
          rcases List.mem_append.mp he' with h | h
          · exact List.mem_append_left _ (hrc e' h)
          · have hsing : e' = .baseABI n i (some "receive") := List.mem_singleton.mp h
            subst hsing
            exact List.mem_append_right _ (List.mem_singleton_self _)
        · intro e' he'
          rcases List.mem_append.mp he' with h | h
          · obtain ⟨q1, q2, q3, q4, q5, q6⟩ := hconv e' h
            exact ⟨q1, q2, q3, q4, q5, fun hx hb => List.mem_append_left _ (q6 hx hb)⟩
          · have hsing : e' = .baseABI n i (some "receive") := List.mem_singleton.mp h
            subst hsing
            refine ⟨fun hx => absurd hx (by simp [isFunctionABI]),
              fun hx => absurd hx (by simp [isEventABI]),
              fun hx => absurd hx (by simp [isErrorABI]),
              fun hx => absurd hx (by simp [isConstructorABI]),
              fun hx => absurd hx (by simp [ABIEntry.entry_type]),
              fun _ _ => List.mem_append_right _ (List.mem_singleton_self _)⟩
      · simp only [Contract.addEntry, hft, hrt, if_false]
        refine ⟨?_, ?_, ?_, ?_, ?_, ?_, ?_⟩
        · intro p hp
          obtain ⟨h1, h2, h3⟩ := hf p hp
          exact ⟨List.mem_append_left _ h1, h2, h3⟩
        · intro p hp
          obtain ⟨h1, h2, h3⟩ := he p hp
          exact ⟨List.mem_append_left _ h1, h2, h3⟩
        · intro p hp
          obtain ⟨h1, h2, h3⟩ := her p hp
          exact ⟨List.mem_append_left _ h1, h2, h3⟩
        · intro e' he'
          obtain ⟨h1, h2⟩ := hct e' he'
          exact ⟨List.mem_append_left _ h1, h2⟩
        · intro e' he'
          exact List.mem_append_left _ (hfb e' he')
        · intro e' he'
          exact List.mem_append_left _ (hrc e' he')
        · intro e' he'
          rcases List.mem_append.mp he' with h | h
          · obtain ⟨q1, q2, q3, q4, q5, q6⟩ := hconv e' h
            exact ⟨q1, q2, q3, q4, q5, q6⟩
          · have hsing : e' = .baseABI n i t := List.mem_singleton.mp h
            subst hsing
            refine ⟨fun hx => absurd hx (by simp [isFunctionABI]),
              fun hx => absurd hx (by simp [isEventABI]),
              fun hx => absurd hx (by simp [isErrorABI]),
              fun hx => absurd hx (by simp [isConstructorABI]),
              fun hx _ => absurd hx hft,
              fun hx _ => absurd hx hrt⟩

theorem parseGo_invariant : ∀ (l : List RawEntry) (c c' : Contract),
    Contract.parseGo c l = .ok c' → entriesIndexInvariant c → entriesIndexInvariant c' := by
  intro l
  induction l with
  | nil =>
    intro c c' h hc
    simp only [Contract.parseGo] at h
    cases h
    exact hc
  | cons r rs ih =>
    intro c c' h hc
    cases hcr : ABIEntryFactory.create r with
    | error e =>
      rw [Contract.parseGo, hcr] at h
      cases h
    | ok e =>
      rw [Contract.parseGo, hcr] at h
      exact ih _ _ h (addEntry_invariant c e hc)

theorem empty_invariant (nm : String) : entriesIndexInvariant (Contract.empty nm) := by
  refine ⟨?_, ?_, ?_, ?_, ?_, ?_, ?_⟩ <;> intro p hp <;> simp [Contract.empty] at hp

/-- C6: every indexed entry is in entries; the converse direction of the
claim is proved here in the amended form (recognized kinds are reachable
through their index; unrecognized kinds are not indexed at all). -/
theorem C6_entries_index_invariant (nm : String) (abi : List RawEntry) (c : Contract)
    (h : Contract.parse nm abi = .ok c) : entriesIndexInvariant c :=
  parseGo_invariant abi (Contract.empty nm) c h (empty_invariant nm)

/-- Witness for C6: the amended invariant holds on a concretely parsed
sample contract exercising every entry kind. -/
theorem C6_entries_index_invariant_witness : entriesIndexInvariant sampleContract :=
  C6_entries_index_invariant "Sample" sampleAbi sampleContract rfl

/-- Counterexample for C6 as stated: an entry with an unrecognized type
is retained in entries but indexed by no by-kind map or list. -/
theorem C6_counterexample :
    Contract.parse "C" [⟨some "banana", some "x", none, none, none, none⟩]
      = Except.ok unknownKindContract ∧
    ABIEntry.baseABI "x" [] (some "banana") ∈ unknownKindContract.entries ∧
    unknownKindContract.functions = [] ∧
    unknownKindContract.events = [] ∧
    unknownKindContract.errors = [] ∧
    unknownKindContract.constructors = [] ∧
    unknownKindContract.fallbacks = [] ∧
    unknownKindContract.receives = [] := by
  refine ⟨rfl, ?_, rfl, rfl, rfl, rfl, rfl, rfl⟩
  simp [unknownKindContract]

theorem lastMatch_trail (n : String) :
    ∀ (l : List (String × CompiledContractData)) (k : String) (d : CompiledContractData),
      lastMatch n l = some (k, d) → trailName k = n := by
  intro l
  induction l with
  | nil => intro k d h; simp [lastMatch] at h
  | cons p rest ih =>
    intro k d h
    rw [lastMatch] at h
    cases hr : lastMatch n rest with
    | some q =>
      rw [hr] at h
      cases h
      exact ih k d hr
    | none =>
      rw [hr] at h
      by_cases ht : trailName p.1 = n
      · rw [if_pos ht] at h
        cases h
        exact ht
      · rw [if_neg ht] at h
        cases h

theorem buildGo_lookup :
    ∀ (l : List (String × CompiledContractData)) (acc m : List (String × Contract)),
      ContractCollection.buildGo acc l = .ok m → ∀ n : String,
      (lastMatch n l = none → Dict.lookup n m = Dict.lookup n acc) ∧
      (∀ k d, lastMatch n l = some (k, d) →
        ∃ c, Contract.parse (trailName k) (d.abi.getD []) = .ok c ∧
          Dict.lookup n m = some c) := by
  intro l
  induction l with
  | nil =>
    intro acc m h n
    simp only [ContractCollection.buildGo] at h
    cases h
    exact ⟨fun _ => rfl, by simp [lastMatch]⟩
  | cons p rest ih =>
    intro acc m h n
    obtain ⟨k0, d0⟩ := p
    cases hp : Contract.parse (trailName k0) (d0.abi.getD []) with
    | error e =>
      rw [ContractCollection.buildGo, hp] at h
      cases h
    | ok c0 =>
      rw [ContractCollection.buildGo, hp] at h
      have ihm := ih (Dict.insert (trailName k0) c0 acc) m h n
      cases hlm : lastMatch n rest with
      | some q =>
        constructor
        · intro hnone
          rw [lastMatch, hlm] at hnone
          cases hnone
        · intro k d heq
          rw [lastMatch, hlm] at heq
          cases heq
          exact ihm.2 k d hlm
      | none =>
        by_cases ht : trailName k0 = n
        · constructor
          · intro hnone
            rw [lastMatch, hlm, if_pos ht] at hnone
            cases hnone
          · intro k d heq
            rw [lastMatch, hlm, if_pos ht] at heq
            cases heq
            refine ⟨c0, hp, ?_⟩
            rw [ihm.1 hlm, ← ht]
            exact Dict.lookup_insert_self (trailName k0) c0 acc
        · constructor
          · intro hnone
            rw [ihm.1 hlm]
            exact Dict.lookup_insert_ne (trailName k0) n c0 acc ht
          · intro k d heq
            rw [lastMatch, hlm, if_neg ht] at heq
            cases heq

theorem buildGo_nodup :
    ∀ (l : List (String × CompiledContractData)) (acc m : List (String × Contract)),
      (acc.map Prod.fst).Nodup → ContractCollection.buildGo acc l = .ok m →
      (m.map Prod.fst).Nodup := by
  intro l
  induction l with
  | nil =>
    intro acc m hacc h
    simp only [ContractCollection.buildGo] at h
    cases h
    exact hacc
  | cons p rest ih =>
    intro acc m hacc h
    obtain ⟨k0, d0⟩ := p
    cases hp : Contract.parse (trailName k0) (d0.abi.getD []) with
    | error e =>
      rw [ContractCollection.buildGo, hp] at h
      cases h
    | ok c0 =>
      rw [ContractCollection.buildGo, hp] at h
      exact ih _ _ (Dict.nodup_keys_insert (trailName k0) c0 acc hacc) h

/-- C9: last-wins storage under the trailing name and KeyError on a
missing lookup. -/
theorem C9_collection_semantics (cd : CompiledData) (cc : ContractCollection)
    (h : ContractCollection.build cd = .ok cc) (n : String) :
    (cc.contracts.map Prod.fst).Nodup ∧
    (lastMatch n (cd.contracts.getD []) = none →
      ContractCollection.getitem cc n = .error (.keyError n)) ∧
    (∀ k d, lastMatch n (cd.contracts.getD []) = some (k, d) →
      ∃ c, Contract.parse n (d.abi.getD []) = .ok c ∧
        ContractCollection.getitem cc n = .ok c) := by
  cases hb : ContractCollection.buildGo [] (cd.contracts.getD []) with
  | error e =>
    rw [ContractCollection.build, hb] at h
    cases h
  | ok m =>
    rw [ContractCollection.build, hb] at h
    cases h
    have hl := buildGo_lookup (cd.contracts.getD []) [] m hb n
    refine ⟨buildGo_nodup (cd.contracts.getD []) [] m (by simp) hb, ?_, ?_⟩
    · intro hnone
      have : Dict.lookup n m = none := (hl.1 hnone).trans rfl
      simp [ContractCollection.getitem, this]
    · intro k d heq
      obtain ⟨c, hc1, hc2⟩ := hl.2 k d heq
      rw [lastMatch_trail n _ k d heq] at hc1
      refine ⟨c, hc1, ?_⟩
      simp [ContractCollection.getitem, hc2]

/-- Witness for C9: two fully-qualified keys sharing the trailing name
Foo; the collection keeps the later contract, and an unknown name fails
with KeyError. -/
theorem C9_collection_semantics_witness :
    ContractCollection.getitem dupCollection "Foo" = .ok fooContract ∧
    ContractCollection.getitem dupCollection "Bar" = .error (.keyError "Bar") := by
  have h1 := C9_collection_semantics dupData dupCollection rfl "Foo"
  have h2 := C9_collection_semantics dupData dupCollection rfl "Bar"
  obtain ⟨c, hc1, hc2⟩ := h1.2.2 "b.sol:Foo" ⟨some [receiveRaw]⟩ rfl
  have hcf : Except.ok c = Except.ok fooContract := hc1.symm.trans (by rfl)
  injection hcf with hcf'
  subst hcf'
  exact ⟨hc2, h2.2.1 rfl⟩

/-- C1: selector/topic lengths as the code computes them.  The Error
selector has 10 characters and the Event topic (its selector property)
66, as the claim states, but the Function selector has only 8 characters
(0x plus 6 hex digits, i.e. 3 digest bytes) because line 109 slices
keccak256(sig)[:8]; the claim requires 10.  Determinism holds. -/
theorem C1_selector_lengths (nm : String) (ins outs : List ABIParameter)
    (sm : String) (anon : Bool) :
    (∃ s, ABIEntry.selector (.functionABI nm ins outs sm) = .ok s ∧ s.length = 8) ∧
    (∃ s, ABIEntry.selector (.errorABI nm ins) = .ok s ∧ s.length = 10) ∧
    (∃ s, ABIEntry.selector (.eventABI nm ins anon) = .ok s ∧ s.length = 66) ∧
    ABIEntry.selector (.functionABI nm ins outs sm)
      = ABIEntry.selector (.functionABI nm ins outs sm) ∧
    ABIEntry.selector (.eventABI nm ins anon) = ABIEntry.selector (.eventABI nm ins anon) := by
  refine ⟨⟨_, rfl, ?_⟩, ⟨_, rfl, ?_⟩, ⟨_, rfl, ?_⟩, rfl, rfl⟩
  · rw [pyTake_length, keccak256_length]
    decide
  · rw [pyTake_length, keccak256_length]
    decide
  · exact keccak256_length _

/-- C2: FunctionABI.encode_abi performs no arity check of its own — its
outcome is exactly the outcome of the external codec — and a successful
result is the 8-character selector string (3 digest bytes, not the 4
selector bytes the claim requires) concatenated with the hex of the
codec output; the codec receives the ABIType objects of the inputs. -/
theorem C2_encode_abi_behavior {α : Type}
    (abi_encode : List ABIType → List α → Except PyError (List Nat))
    (nm : String) (ins outs : List ABIParameter) (sm : String) (args : List α) :
    (∀ err, abi_encode (ins.map ABIParameter.type) args = .error err →
      ABIEntry.encode_abi abi_encode (.functionABI nm ins outs sm) args = .error err) ∧
    (∀ enc, abi_encode (ins.map ABIParameter.type) args = .ok enc →
      ABIEntry.encode_abi abi_encode (.functionABI nm ins outs sm) args
        = .ok (pyTake (keccak256 (entrySignatureStr nm ins)) 8 ++ bytesToHex enc) ∧
      (pyTake (keccak256 (entrySignatureStr nm ins)) 8).length = 8) := by
  constructor
  · intro err h
    simp [ABIEntry.encode_abi, h]
  · intro enc h
    refine ⟨by simp [ABIEntry.encode_abi, h], ?_⟩
    rw [pyTake_length, keccak256_length]
    decide

set_option maxRecDepth 10000 in
/-- Witness for C2: a two-input function encoded with zero arguments
still succeeds (no ArityMismatch), returning the 8-character selector
prefix followed by the codec output. -/
theorem C2_encode_abi_behavior_witness :
    ABIEntry.encode_abi constCodec transferFn [] = .ok "0x4b40e9ab" := by
  have h := (C2_encode_abi_behavior constCodec "transfer" transferInputs [] "nonpayable"
    ([] : List Nat)).2 [171] rfl
  exact h.1.trans (by rfl)

/-- Counterexample for C3 as stated: building the ABIType for raw type
tuple with components absent succeeds (no MalformedType error) and
silently canonicalizes to "()". -/
theorem C3_counterexample :
    buildABIType "tuple" OptRawParams.none = .ok (ABIType.mk "tuple" []) ∧
    (ABIType.mk "tuple" []).canonical_type = "()" :=
  ⟨rfl, rfl⟩

/-- C3 amended: a tuple raw type whose components are absent is treated
as having no components (components or []), builds successfully, and
canonicalizes to "()" plus the array suffix. -/
theorem C3_missing_components_silent (raw : String) :
    buildABIType raw OptRawParams.none = .ok (ABIType.mk raw []) ∧
    (pyStartsWith raw "tuple" = true →
      (ABIType.mk raw []).canonical_type = "(" ++ ")" ++ pyDrop raw 5) := by
  refine ⟨rfl, fun h => ?_⟩
  rw [ABIType.canonical_type, if_pos (by exact_mod_cast h)]
  rfl

/-- Witness for C3 amended at raw type tuple[]: the canonical type is
"()[]" and no error is raised. -/
theorem C3_missing_components_silent_witness :
    buildABIType "tuple[]" OptRawParams.none = .ok (ABIType.mk "tuple[]" []) ∧
    (ABIType.mk "tuple[]" []).canonical_type = "()[]" := by
  have h := C3_missing_components_silent "tuple[]"
  exact ⟨h.1, (h.2 rfl).trans (by rfl)⟩

/-- C4: canonicalization returns non-tuple raw types unchanged, and for
tuple raw types produces the parenthesized comma-join of the recursively
canonicalized component types followed by the array suffix (the raw
string after the 5-character token tuple). -/
theorem C4_canonical_type :
    (∀ (raw : String) (comps : List ABIParameter), pyStartsWith raw "tuple" = false →
      (ABIType.mk raw comps).canonical_type = raw) ∧
    (∀ (raw : String) (comps : List ABIParameter), pyStartsWith raw "tuple" = true →
      (ABIType.mk raw comps).canonical_type
        = "(" ++ pyJoin "," (comps.map (fun p => p.type.canonical_type)) ++ ")"
            ++ pyDrop raw 5) := by
  constructor
  · intro raw comps h
    rw [ABIType.canonical_type, if_neg (by simp [h])]
  · intro raw comps h
    rw [ABIType.canonical_type, if_pos (by exact_mod_cast h), canonList_eq_map]

/-- Witness for C4: a base type is unchanged and a depth-3 nested tuple
(tuple[] of tuple containing a tuple[2]) canonicalizes correctly. -/
theorem C4_canonical_type_witness :
    (ABIType.mk "uint256" []).canonical_type = "uint256" ∧
    deepTuple.canonical_type = "((uint8,(bool)[2]))[]" := by
  have h := C4_canonical_type
  exact ⟨h.1 "uint256" [] rfl, (h.2 "tuple[]" deepComps rfl).trans (by rfl)⟩

set_option maxRecDepth 10000 in
/-- C5: the digest the code computes (SHA3-256) disagrees with the
Keccak-256 digest the spec requires; on the canonical ERC-20 signature
the required selector is the well-known 0xa9059cbb, while the code
derives 0x4b40e901. -/
theorem C5_hash_substituted :
    keccak256 "transfer(address,uint256)" ≠ requiredKeccak256 "transfer(address,uint256)" ∧
    pyTake (requiredKeccak256 "transfer(address,uint256)") 10 = "0xa9059cbb" ∧
    pyTake (keccak256 "transfer(address,uint256)") 10 = "0x4b40e901" := by
  refine ⟨by decide, rfl, rfl⟩

/-- C7 amended: every kind-mismatched request fails loudly with an
explicit error — NotImplementedError for signature on a plain entry,
AttributeError for selector and encode_abi on kinds lacking them — with
the single exception of signature on a Constructor, which silently
returns None. -/
theorem C7_kind_dispatch (e : ABIEntry) :
    (isConstructorABI e = true → ABIEntry.signature e = .ok none) ∧
    (isBaseABI e = true → ABIEntry.signature e = .error .notImplementedError) ∧
    (isFunctionABI e = false → isEventABI e = false → isErrorABI e = false →
      ABIEntry.selector e = .error (.attributeError e.className "selector")) ∧
    (∀ (α : Type) (codec : List ABIType → List α → Except PyError (List Nat)) (args : List α),
      isFunctionABI e = false →
      ABIEntry.encode_abi codec e args = .error (.attributeError e.className "encode_abi")) := by
  cases e <;>
    simp [ABIEntry.signature, ABIEntry.selector, ABIEntry.encode_abi, ABIEntry.className,
      isConstructorABI, isBaseABI, isFunctionABI, isEventABI, isErrorABI]

/-- Counterexample for C7 as stated: requesting signature on a
Constructor does not fail; it silently yields the null value. -/
theorem C7_counterexample :
    ABIEntry.signature (.constructorABI [] "nonpayable") = .ok none := rfl

/-- Witness for C7 amended: concrete kind-mismatched requests and their
explicit errors. -/
theorem C7_kind_dispatch_witness :
    ABIEntry.signature (.baseABI "" [] (some "fallback")) = .error .notImplementedError ∧
    ABIEntry.selector (.constructorABI [] "") = .error (.attributeError "ConstructorABI" "selector") ∧
    ABIEntry.encode_abi (fun _ _ => .ok ([] : List Nat)) (.eventABI "E" [] false) ([] : List Nat)
      = .error (.attributeError "EventABI" "encode_abi") := by
  have h1 := C7_kind_dispatch (.baseABI "" [] (some "fallback"))
  have h2 := C7_kind_dispatch (.constructorABI [] "")
  have h3 := C7_kind_dispatch (.eventABI "E" [] false)
  exact ⟨h1.2.1 rfl, (h2.2.2.1 rfl rfl rfl).trans (by rfl),
    (h3.2.2.2 Nat (fun _ _ => .ok []) [] rfl).trans (by rfl)⟩

/-- C8: get_function/get_event/get_error return none (not an error) for
unknown names, get_constructor returns the head of the parsed
constructor list or none, and attribute access probes functions, then
events, then errors, raising AttributeError when nothing matches. -/
theorem C8_lookup_semantics (c : Contract) (n : String) :
    (Dict.lookup n c.functions = none → Contract.get_function c n = none) ∧
    (Dict.lookup n c.events = none → Contract.get_event c n = none) ∧
    (Dict.lookup n c.errors = none → Contract.get_error c n = none) ∧
    Contract.get_constructor c = c.constructors.head? ∧
    (∀ f, Dict.lookup n c.functions = some f → Contract.getattr c n = .ok f) ∧
    (∀ ev, Dict.lookup n c.functions = none → Dict.lookup n c.events = some ev →
      Contract.getattr c n = .ok ev) ∧
    (∀ er, Dict.lookup n c.functions = none → Dict.lookup n c.events = none →
      Dict.lookup n c.errors = some er → Contract.getattr c n = .ok er) ∧
    (Dict.lookup n c.functions = none → Dict.lookup n c.events = none →
      Dict.lookup n c.errors = none →
      Contract.getattr c n = .error (.attributeError c.name n)) := by
  refine ⟨fun h => h, fun h => h, fun h => h, rfl, ?_, ?_, ?_, ?_⟩ <;>
    intros <;> simp [Contract.getattr, *]

/-- Witness for C8 on the sample contract: an unknown name yields none
from get_function, attribute access resolves the parsed event, and an
unknown attribute fails with AttributeError naming the contract. -/
theorem C8_lookup_semantics_witness :
    Contract.get_function sampleContract "nosuch" = none ∧
    Contract.getattr sampleContract "Transfer" = .ok (.eventABI "Transfer" [] false) ∧
    Contract.getattr sampleContract "nosuch" = .error (.attributeError "Sample" "nosuch") := by
  have h1 := C8_lookup_semantics sampleContract "nosuch"
  have h2 := C8_lookup_semantics sampleContract "Transfer"
  refine ⟨h1.1 rfl, h2.2.2.2.2.2.1 (.eventABI "Transfer" [] false) rfl rfl, ?_⟩
  exact (h1.2.2.2.2.2.2.2 rfl rfl rfl).trans (by rfl)

/-- C10: a raw entry of type fallback or receive builds an EntryModel
with empty name and empty inputs regardless of the raw name and inputs
fields, while every other successfully created entry carries exactly the
inputs built from the raw inputs field. -/
theorem C10_fallback_receive (r : RawEntry) (e : ABIEntry)
    (h : ABIEntryFactory.create r = .ok e) :
    ((r.type = some "fallback" ∨ r.type = some "receive") →
      e.name = "" ∧ e.inputs = []) ∧
    (r.type ≠ some "fallback" → r.type ≠ some "receive" →
      buildComponents (r.inputs.getD .nil) = .ok e.inputs) := by
  obtain ⟨rt, rn, ri, ro, rsm, ra⟩ := r
  simp only [ABIEntryFactory.create] at h ⊢
  cases hbi : buildComponents (ri.getD .nil) with
  | error err =>
    rw [hbi] at h
    cases h
  | ok ins =>
    rw [hbi] at h
    simp only [] at h
    cases hbo : (match ro with
                 | some os => buildOutputs os
                 | none => (.ok [] : Except PyError (List ABIParameter))) with
    | error err =>
      rw [hbo] at h
      cases h
    | ok outs =>
      rw [hbo] at h
      simp only [] at h
      split at h <;> cases h <;>
        first
          | exact ⟨fun hx => absurd hx (by simp_all),
              fun _ _ => by simpa [ABIEntry.inputs] using hbi⟩
          | exact ⟨fun _ => ⟨rfl, rfl⟩, fun hx1 hx2 => by simp_all⟩

/-- Witness for C10: a fallback raw entry carrying a junk name and a
non-empty inputs array still builds the empty fallback entry, and a
function entry retains its built inputs. -/
theorem C10_fallback_receive_witness :
    ABIEntryFactory.create fallbackRaw = .ok (.baseABI "" [] (some "fallback")) ∧
    (ABIEntry.baseABI "" [] (some "fallback")).name = "" ∧
    (ABIEntry.baseABI "" [] (some "fallback")).inputs = [] ∧
    buildComponents (transferRaw.inputs.getD .nil) = .ok transferFn.inputs := by
  have h1 := C10_fallback_receive fallbackRaw (.baseABI "" [] (some "fallback")) rfl
  have h2 := C10_fallback_receive transferRaw transferFn rfl
  exact ⟨rfl, (h1.1 (Or.inl rfl)).1, (h1.1 (Or.inl rfl)).2,
    h2.2 (by simp [transferRaw]) (by simp [transferRaw])⟩
